import Mathlib

/-!
Shallow embedding of `src/main.rs` of the snake repository.

The source is a terminal snake game.  We embed its pure data model and
per-iteration logic:

* `Vec2` — the 2D vector type (`struct Vec2 { x: f64, y: f64 }`), generic
  over a linear ordered field `α`: instantiated at `ℚ` for exact, decidable
  statements (the idealisation of `f64` arithmetic) and at `ℝ` for the
  trigonometric operation `rotate`, which uses `cos`/`sin`.
* `Snake` — `struct Snake { len: u32, head: Vec2, body: LinkedList<Vec2>, forward: Vec2 }`;
  the `LinkedList` is a `List` with front = list head, `push_front` = `cons`,
  `pop_back` = `List.dropLast`.
* `Game` — `struct Game { height: u16, width: u16, player: Snake, clock: Clock }`.
  The `Clock` field only holds a wall-clock `Instant` used for frame pacing
  (I/O timing); it never influences the state transitions the claims are
  about, so it is not part of the embedded state.
* `Commands` and `Commands.from_key` — the key-to-command mapping.
* `loopIter` — one iteration of `game_loop`'s `loop` body, as a function of
  the `try_recv` outcome (`PollResult`); `none` models `break` (the loop
  terminates), `some g` models continuing with updated game state `g`.
  `draw` writes to the terminal and does not change the game state, and the
  `clock.tick` result is the `dt` of the *next* iteration, so the state
  carried across an iteration is exactly the `Game` value.
-/

structure Vec2 (α : Type) where
  x : α
  y : α
  deriving DecidableEq, Repr

namespace Vec2

variable {α : Type} [LinearOrderedField α]

/-- Embeds `Vec2::new`. -/
def new (x y : α) : Vec2 α := ⟨x, y⟩

/-- Embeds `impl ops::Add for Vec2`. -/
instance : Add (Vec2 α) := ⟨fun a b => ⟨a.x + b.x, a.y + b.y⟩⟩

/-- Embeds `impl ops::Sub for Vec2`. -/
instance : Sub (Vec2 α) := ⟨fun a b => ⟨a.x - b.x, a.y - b.y⟩⟩

/-- Embeds `impl ops::Mul<f64> for Vec2` (scalar multiply). -/
instance : HMul (Vec2 α) α (Vec2 α) := ⟨fun a r => ⟨a.x * r, a.y * r⟩⟩

theorem add_def (a b : Vec2 α) : a + b = ⟨a.x + b.x, a.y + b.y⟩ := rfl

theorem smul_def (a : Vec2 α) (r : α) : a * r = ⟨a.x * r, a.y * r⟩ := rfl

theorem sub_def (a b : Vec2 α) : a - b = ⟨a.x - b.x, a.y - b.y⟩ := rfl

/-- Componentwise clamp of a scalar, mirroring `f64::clamp(min, max)`
(for `min ≤ max`; the Rust version asserts this). -/
def clampScalar (v lo hi : α) : α :=
  if v < lo then lo else if v > hi then hi else v

/-- Embeds `Vec2::clamp`: independent per-axis clamp against given min/max corners. -/
def clamp (v min max : Vec2 α) : Vec2 α :=
  ⟨clampScalar v.x min.x max.x, clampScalar v.y min.y max.y⟩

/-- Embeds `Vec2::inside_rectange`:
`self.x >= p1.x && self.y >= p1.y && self.x <= p2.x && self.y <= p2.y`. -/
def inside_rectange (v p1 p2 : Vec2 α) : Bool :=
  decide (v.x ≥ p1.x) && decide (v.y ≥ p1.y) && decide (v.x ≤ p2.x) && decide (v.y ≤ p2.y)

/-- Embeds `Vec2::outside_rectange`:
`self.x < p1.x && self.y < p1.y && self.x > p2.x && self.y > p2.y`. -/
def outside_rectange (v p1 p2 : Vec2 α) : Bool :=
  decide (v.x < p1.x) && decide (v.y < p1.y) && decide (v.x > p2.x) && decide (v.y > p2.y)

/-- Embeds `Vec2::round` (f64 round: half away from zero on each axis). -/
def round (v : Vec2 ℚ) : Vec2 ℚ := ⟨⌊v.x + 1/2⌋, ⌊v.y + 1/2⌋⟩

/-- Embeds `Vec2::rotate` (only meaningful over `ℝ`, where `cos`/`sin` live):
`(self.x, self.y) = (x·cos θ − y·sin θ, x·sin θ + y·cos θ)`, the right-hand
sides evaluated from the pre-assignment components. -/
noncomputable def rotate (v : Vec2 ℝ) (angle : ℝ) : Vec2 ℝ :=
  ⟨v.x * Real.cos angle - v.y * Real.sin angle,
   v.x * Real.sin angle + v.y * Real.cos angle⟩

end Vec2

/-- Embeds `f64::to_radians`: `self * (π / 180)`. -/
noncomputable def toRadians (d : ℝ) : ℝ := d * (Real.pi / 180)

/-- Embeds `enum Commands`; the `RotatePlayer` payload is the `f64` angle,
embedded at `ℝ`. -/
inductive Commands (α : Type) where
  | RotatePlayer (dir : α)
  | Extend
  | Shrink
  | Quit
  deriving DecidableEq

/-- Embeds `termion::event::Key`, restricted to the variants the program can see;
`Other` stands for every remaining variant (Home, End, PageUp, …), all of
which fall into the wildcard arm of `from_key`. -/
inductive Key where
  | Char (c : Char)
  | Left
  | Right
  | Up
  | Down
  | Backspace
  | Delete
  | Esc
  | F (n : ℕ)
  | Alt (c : Char)
  | Ctrl (c : Char)
  | Null
  | Other
  deriving DecidableEq

namespace Commands

/-- Embeds `Commands::from_key`: the key-to-command mapping of the input thread. -/
noncomputable def from_key (key : Key) : Option (Commands ℝ) :=
  match key with
  | Key.Char c =>
      if c = 'q' then some Commands.Quit
      else if c = 'e' then some Commands.Extend
      else if c = 'r' then some Commands.Shrink
      else if c = 'd' ∨ c = 'l' then some (Commands.RotatePlayer (toRadians 90))
      else if c = 'a' ∨ c = 'h' then some (Commands.RotatePlayer (toRadians (-90)))
      else none
  | Key.Right => some (Commands.RotatePlayer (toRadians 90))
  | Key.Left => some (Commands.RotatePlayer (toRadians (-90)))
  | _ => none

end Commands

/-- Embeds `struct Snake`; `body` is the `LinkedList<Vec2>` with list head = front. -/
structure Snake (α : Type) where
  len : ℕ
  head : Vec2 α
  body : List (Vec2 α)
  forward : Vec2 α
  deriving DecidableEq

namespace Snake

variable {α : Type} [LinearOrderedField α]

/-- Embeds `Snake::new`. -/
def new : Snake α :=
  { len := 1
    head := Vec2.new (3/100) (3/100)
    body := []
    forward := Vec2.new (11/100) 0 }

/-- Embeds `Snake::extend`: candidate head `head + forward.clamp((-0.01,-0.01),(0.01,0.01))`,
push current head to front, set head to the candidate. -/
def extend (s : Snake α) : Snake α :=
  let newhead := s.head + Vec2.clamp s.forward (Vec2.new (-(1/100)) (-(1/100))) (Vec2.new (1/100) (1/100))
  { s with body := s.head :: s.body, head := newhead }

/-- Embeds `Snake::shrink`: `self.body.pop_back()` (no-op on an empty list). -/
def shrink (s : Snake α) : Snake α :=
  { s with body := s.body.dropLast }

/-- Embeds `Snake::move` (`r#move` in the source): push current head to front, advance head by
`forward * dt`, pop the back segment. -/
def move (s : Snake α) (dt : α) : Snake α :=
  { s with
    body := (s.head :: s.body).dropLast
    head := s.head + s.forward * dt }

/-- Embeds `Snake::rotate`: rotates `forward` in place. -/
noncomputable def rotate (s : Snake ℝ) (angle : ℝ) : Snake ℝ :=
  { s with forward := Vec2.rotate s.forward angle }

end Snake

/-- Embeds `struct Game` (without the `Clock`, which only carries an `Instant` for
frame pacing and never affects the embedded state transitions).  `height`
and `width` are `u16` values, embedded as `ℕ` (theorems about arbitrary
games restrict them to `< 65536` where it matters). -/
structure Game (α : Type) where
  height : ℕ
  width : ℕ
  player : Snake α
  deriving DecidableEq

namespace Game

variable {α : Type} [LinearOrderedField α]

/-- Embeds `Game::update`: if the candidate point `head + forward*dt` is inside the
unit rectangle, move the player; otherwise an empty `else if` branch on the
(degenerate) outside test — no state change either way. -/
def update (g : Game α) (dt : α) : Game α :=
  if Vec2.inside_rectange (g.player.head + g.player.forward * dt) (Vec2.new 0 0) (Vec2.new 1 1)
  then { g with player := g.player.move dt }
  else if Vec2.outside_rectange g.player.head (Vec2.new 0 0) (Vec2.new 1 1)
  then g
  else g

/-- The `f64 as u16` cast of Rust, for a non-`NaN` value: truncation toward
zero, saturating into `[0, 65535]`. -/
def u16cast [FloorRing α] (q : α) : ℕ :=
  if q < 0 then 0 else min ⌊q⌋.toNat 65535

/-- Embeds `Game::term_coord`: `(x*width as u16 + 1, y*height as u16 + 1)`, the
`+ 1` performed in `u16` arithmetic (wrapping modulo `2^16`). -/
def term_coord [FloorRing α] (g : Game α) (v : Vec2 α) : ℕ × ℕ :=
  ((u16cast (v.x * (g.width : α)) + 1) % 65536,
   (u16cast (v.y * (g.height : α)) + 1) % 65536)

end Game

/-- Outcome of `reciever.try_recv()` in `game_loop`: a pending command,
an empty channel, or a disconnected channel. -/
inductive PollResult (α : Type) where
  | ok (cmd : Commands α)
  | empty
  | disconnected

/-- One iteration of the `loop` in `game_loop`, as a function of the game
state, the pending `dt` (produced by the previous iteration's `clock.tick`)
and the `try_recv` outcome.  `none` models `break` — the loop terminates
with no further update/draw/tick in that iteration; `some g` models
completing the iteration (command dispatch, then `game.update(dt)`; `draw`
and `clock.tick` do not change the `Game` state carried to the next
iteration). -/
noncomputable def loopIter (g : Game ℝ) (dt : ℝ) (p : PollResult ℝ) : Option (Game ℝ) :=
  match p with
  | PollResult.ok cmd =>
      match cmd with
      | Commands.RotatePlayer dir => some (Game.update { g with player := g.player.rotate dir } dt)
      | Commands.Extend => some (Game.update { g with player := g.player.extend } dt)
      | Commands.Shrink => some (Game.update { g with player := g.player.shrink } dt)
      | Commands.Quit => none
  | PollResult.empty => some (Game.update g dt)
  | PollResult.disconnected => none

/-! ## Helper lemmas -/

theorem Vec2.clampScalar_le {α : Type} [LinearOrderedField α] (v lo hi : α) (h : lo ≤ hi) :
    lo ≤ Vec2.clampScalar v lo hi ∧ Vec2.clampScalar v lo hi ≤ hi := by
  unfold Vec2.clampScalar
  split_ifs with h1 h2
  · exact ⟨le_refl lo, h⟩
  · exact ⟨h, le_refl hi⟩
  · exact ⟨le_of_not_lt h1, le_of_not_lt h2⟩

/-! ## Claims -/

/-- C1: the simulation loop terminates exactly when it receives a `Quit`
command or when the channel is disconnected; on `Quit` (and disconnection)
the iteration produces `none` — it breaks before performing the simulation
update, render or clock tick of that iteration (the `none` result carries
no updated state), and `loopIter` is a total function, so termination never
raises an error.  Every other poll outcome produces `some _`: the loop
continues. -/
theorem loopIter_breaks_iff_quit_or_disconnected (g : Game ℝ) (dt : ℝ) (p : PollResult ℝ) :
    loopIter g dt p = none ↔
      (p = PollResult.ok Commands.Quit ∨ p = PollResult.disconnected) := by
  cases p with
  | ok cmd => cases cmd <;> simp [loopIter]
  | empty => simp [loopIter]
  | disconnected => simp [loopIter]

/-- C2: the per-frame update performs `player.move(dt)` exactly when the
candidate point `head + forward*dt` lies inside the unit rectangle
(boundary-inclusive), and otherwise leaves the game — in particular the
whole player state — unchanged. -/
theorem update_moves_iff_inside (g : Game ℚ) (dt : ℚ) :
    (Vec2.inside_rectange (g.player.head + g.player.forward * dt)
        (Vec2.new 0 0) (Vec2.new 1 1) = true →
      g.update dt = { g with player := g.player.move dt }) ∧
    (Vec2.inside_rectange (g.player.head + g.player.forward * dt)
        (Vec2.new 0 0) (Vec2.new 1 1) = false →
      g.update dt = g) := by
  constructor <;> intro h <;> simp [Game.update, h]

/-- Witness for C2 at a concrete game: head `(0.03, 0.03)`, forward
`(0.11, 0)`, `dt = 1`; the candidate point `(0.14, 0.03)` is inside. -/
theorem update_moves_iff_inside_witness :
    Game.update (⟨24, 80, Snake.new⟩ : Game ℚ) 1 =
      { (⟨24, 80, Snake.new⟩ : Game ℚ) with player := Snake.new.move 1 } :=
  (update_moves_iff_inside ⟨24, 80, Snake.new⟩ 1).1 (by
    simp only [Vec2.inside_rectange, Snake.new, Vec2.new, Vec2.add_def, Vec2.smul_def,
      Bool.and_eq_true, decide_eq_true_eq]
    norm_num)

/-- C3: on a body with at least one segment, `move(dt)` pushes the current
head onto the front, sets the head to `head + forward*dt`, and pops the
back segment: the segment count is unchanged and the head moves by exactly
`forward*dt`. -/
theorem move_spec (s : Snake ℚ) (dt : ℚ) (h : s.body ≠ []) :
    (s.move dt).body.length = s.body.length ∧
    (s.move dt).head = s.head + s.forward * dt ∧
    (s.move dt).body = s.head :: s.body.dropLast := by
  refine ⟨?_, rfl, ?_⟩
  · simp [Snake.move]
  · simp [Snake.move, List.dropLast_cons_of_ne_nil h]

/-- Witness for C3: head `(0.5, 0.5)`, forward `(0.11, 0)`, one segment,
`dt = 1`; the new head is `(0.61, 0.5)` and the segment count stays `1`. -/
theorem move_spec_witness :
    (((⟨1, ⟨1/2, 1/2⟩, [⟨0, 0⟩], ⟨11/100, 0⟩⟩ : Snake ℚ).move 1).body.length = 1 ∧
      ((⟨1, ⟨1/2, 1/2⟩, [⟨0, 0⟩], ⟨11/100, 0⟩⟩ : Snake ℚ).move 1).head = ⟨61/100, 1/2⟩) := by
  have h := move_spec (⟨1, ⟨1/2, 1/2⟩, [⟨0, 0⟩], ⟨11/100, 0⟩⟩ : Snake ℚ) 1 (by simp)
  refine ⟨h.1, ?_⟩
  rw [h.2.1]
  simp only [Vec2.add_def, Vec2.smul_def, Vec2.mk.injEq]
  norm_num

/-- C4: `extend()` pushes the current head onto the front (segment count
increases by one) and sets the head to
`head + clamp(forward, (-0.01,-0.01), (0.01,0.01))`, so each component of
the head's displacement lies within `[-0.01, 0.01]` regardless of
`forward`'s magnitude (and no frame timestep is involved). -/
theorem extend_spec (s : Snake ℚ) :
    s.extend.body.length = s.body.length + 1 ∧
    s.extend.body = s.head :: s.body ∧
    s.extend.head = s.head +
      Vec2.clamp s.forward (Vec2.new (-(1/100)) (-(1/100))) (Vec2.new (1/100) (1/100)) ∧
    (-(1/100) ≤ (s.extend.head - s.head).x ∧ (s.extend.head - s.head).x ≤ 1/100) ∧
    (-(1/100) ≤ (s.extend.head - s.head).y ∧ (s.extend.head - s.head).y ≤ 1/100) := by
  have hx := Vec2.clampScalar_le s.forward.x (-(1/100) : ℚ) (1/100) (by norm_num)
  have hy := Vec2.clampScalar_le s.forward.y (-(1/100) : ℚ) (1/100) (by norm_num)
  refine ⟨by simp [Snake.extend], rfl, rfl, ?_, ?_⟩ <;>
    simp [Snake.extend, Vec2.add_def, Vec2.sub_def, Vec2.clamp, Vec2.new] <;>
    constructor <;> linarith [hx.1, hx.2, hy.1, hy.2]

/-- C5: `shrink()` removes the back segment when the sequence is non-empty,
and on a body with zero segments it is a total no-op: the state (head,
forward, segment count) is exactly preserved. -/
theorem shrink_spec (s : Snake ℚ) :
    s.shrink.body = s.body.dropLast ∧
    s.shrink.head = s.head ∧
    s.shrink.forward = s.forward ∧
    (s.body = [] → s.shrink = s) := by
  refine ⟨rfl, rfl, rfl, fun h => ?_⟩
  cases s
  simp_all [Snake.shrink]

/-- Witness for C5 on the zero-segment snake `Snake::new()`. -/
theorem shrink_spec_witness :
    (Snake.new : Snake ℚ).shrink = Snake.new :=
  (shrink_spec Snake.new).2.2.2 rfl

/-- C6: for a well-formed box (`p1` componentwise ≤ `p2`) the
`outside_rectange` test returns `false` on every point: its predicate is
unsatisfiable, so the `outside` branch of `Game::update` is dead code. -/
theorem outside_rectange_false (v p1 p2 : Vec2 ℚ)
    (hx : p1.x ≤ p2.x) (_hy : p1.y ≤ p2.y) :
    Vec2.outside_rectange v p1 p2 = false := by
  simp only [Vec2.outside_rectange, Bool.and_eq_false_iff, decide_eq_false_iff_not, not_lt]
  by_contra hc
  push_neg at hc
  obtain ⟨⟨⟨h1, _⟩, h3⟩, _⟩ := hc
  linarith

/-- Witness for C6 at the unit box and the origin. -/
theorem outside_rectange_false_witness :
    Vec2.outside_rectange (⟨0, 0⟩ : Vec2 ℚ) ⟨0, 0⟩ ⟨1, 1⟩ = false :=
  outside_rectange_false ⟨0, 0⟩ ⟨0, 0⟩ ⟨1, 1⟩ (by norm_num) (by norm_num)

/-- C7 (amended): for a logical point `(x,y) ∈ [0,1]²`, and provided the
truncated products stay below the `u16` limit (`⌊x·width⌋ < 65535` and
`⌊y·height⌋ < 65535`, so that the `+ 1` does not overflow `u16`),
`term_coord` returns the terminal cell `(⌊x·width⌋+1, ⌊y·height⌋+1)`,
truncating toward zero. -/
theorem term_coord_formula (g : Game ℚ) (x y : ℚ)
    (hx0 : 0 ≤ x) (_hx1 : x ≤ 1) (hy0 : 0 ≤ y) (_hy1 : y ≤ 1)
    (hwx : ⌊x * (g.width : ℚ)⌋ < 65535) (hhy : ⌊y * (g.height : ℚ)⌋ < 65535) :
    g.term_coord ⟨x, y⟩ =
      (⌊x * (g.width : ℚ)⌋.toNat + 1, ⌊y * (g.height : ℚ)⌋.toNat + 1) := by
  have hx' : (0 : ℚ) ≤ x * (g.width : ℚ) := mul_nonneg hx0 (by positivity)
  have hy' : (0 : ℚ) ≤ y * (g.height : ℚ) := mul_nonneg hy0 (by positivity)
  have zx : (0 : ℤ) ≤ ⌊x * (g.width : ℚ)⌋ := Int.floor_nonneg.mpr hx'
  have zy : (0 : ℤ) ≤ ⌊y * (g.height : ℚ)⌋ := Int.floor_nonneg.mpr hy'
  simp only [Game.term_coord, Game.u16cast]
  rw [if_neg (not_lt.mpr hx'), if_neg (not_lt.mpr hy')]
  simp only [Prod.mk.injEq]
  constructor <;> omega

/-- Counterexample for C7 as stated: at terminal width `65535` (a valid
`u16`) and logical point `(1, 0.5)`, the claimed cell formula gives first
coordinate `⌊1·65535⌋ + 1 = 65536`, but the code's `x as u16 + 1` wraps in
`u16` arithmetic and yields `0`. -/
theorem term_coord_wrap_counterexample :
    Game.term_coord (⟨24, 65535, Snake.new⟩ : Game ℚ) ⟨1, 1/2⟩ ≠
      (⌊(1 : ℚ) * ((65535 : ℕ) : ℚ)⌋.toNat + 1, ⌊(1/2 : ℚ) * ((24 : ℕ) : ℚ)⌋.toNat + 1) ∧
    Game.term_coord (⟨24, 65535, Snake.new⟩ : Game ℚ) ⟨1, 1/2⟩ = (0, 13) := by
  have h1 : ⌊(1 : ℚ) * ((65535 : ℕ) : ℚ)⌋ = 65535 := by norm_num
  have h2 : ⌊(1/2 : ℚ) * ((24 : ℕ) : ℚ)⌋ = 12 := by norm_num
  have hc : Game.term_coord (⟨24, 65535, Snake.new⟩ : Game ℚ) ⟨1, 1/2⟩ = (0, 13) := by
    simp only [Game.term_coord, Game.u16cast]
    norm_num [h1, h2]
    omega
  refine ⟨?_, hc⟩
  rw [hc, h1, h2]
  norm_num

/-- Witness for the amended C7 at the spec's scenario: width `80`,
height `24`, logical point `(0.5, 0.5)` maps to terminal cell `(41, 13)`. -/
theorem term_coord_formula_witness :
    Game.term_coord (⟨24, 80, Snake.new⟩ : Game ℚ) ⟨1/2, 1/2⟩ = (41, 13) := by
  have hw : ⌊(1/2 : ℚ) * ((80 : ℕ) : ℚ)⌋ = 40 := by norm_num
  have hh : ⌊(1/2 : ℚ) * ((24 : ℕ) : ℚ)⌋ = 12 := by norm_num
  have h := term_coord_formula (⟨24, 80, Snake.new⟩ : Game ℚ) (1/2) (1/2)
    (by norm_num) (by norm_num) (by norm_num) (by norm_num)
    (by rw [show ((⟨24, 80, Snake.new⟩ : Game ℚ).width : ℚ) = ((80 : ℕ) : ℚ) from rfl, hw]; norm_num)
    (by rw [show ((⟨24, 80, Snake.new⟩ : Game ℚ).height : ℚ) = ((24 : ℕ) : ℚ) from rfl, hh]; norm_num)
  rw [h]
  rw [show ((⟨24, 80, Snake.new⟩ : Game ℚ).width : ℚ) = ((80 : ℕ) : ℚ) from rfl,
    show ((⟨24, 80, Snake.new⟩ : Game ℚ).height : ℚ) = ((24 : ℕ) : ℚ) from rfl, hw, hh]
  norm_num
  omega

/-- C8: the key-to-command mapping is exactly: `q` → Quit, `e` → Extend,
`r` → Shrink, Right / `d` / `l` → RotatePlayer(+90° in radians),
Left / `a` / `h` → RotatePlayer(−90° in radians), and every other key —
any other character, and any non-character key other than the arrows —
maps to `none`. -/
theorem from_key_mapping :
    Commands.from_key (Key.Char 'q') = some Commands.Quit ∧
    Commands.from_key (Key.Char 'e') = some Commands.Extend ∧
    Commands.from_key (Key.Char 'r') = some Commands.Shrink ∧
    Commands.from_key Key.Right = some (Commands.RotatePlayer (toRadians 90)) ∧
    Commands.from_key (Key.Char 'd') = some (Commands.RotatePlayer (toRadians 90)) ∧
    Commands.from_key (Key.Char 'l') = some (Commands.RotatePlayer (toRadians 90)) ∧
    Commands.from_key Key.Left = some (Commands.RotatePlayer (toRadians (-90))) ∧
    Commands.from_key (Key.Char 'a') = some (Commands.RotatePlayer (toRadians (-90))) ∧
    Commands.from_key (Key.Char 'h') = some (Commands.RotatePlayer (toRadians (-90))) ∧
    (∀ c : Char, c ∉ (['q', 'e', 'r', 'd', 'l', 'a', 'h'] : List Char) →
      Commands.from_key (Key.Char c) = none) ∧
    (∀ k : Key, (∀ c, k ≠ Key.Char c) → k ≠ Key.Left → k ≠ Key.Right →
      Commands.from_key k = none) := by
  refine ⟨rfl, rfl, rfl, rfl, rfl, rfl, rfl, rfl, rfl, ?_, ?_⟩
  · intro c hc
    simp only [List.mem_cons, List.not_mem_nil, or_false, not_or] at hc
    obtain ⟨h1, h2, h3, h4, h5, h6, h7⟩ := hc
    simp [Commands.from_key, h1, h2, h3, h4, h5, h6, h7]
  · intro k hchar hleft hright
    cases k <;>
      first
        | rfl
        | exact absurd rfl (hchar _)
        | exact absurd rfl hleft
        | exact absurd rfl hright

/-- Witness for C8: the unmapped character `z` and the unmapped key
`Up` both produce no command. -/
theorem from_key_mapping_witness :
    Commands.from_key (Key.Char 'z') = none ∧ Commands.from_key Key.Up = none := by
  refine ⟨?_, ?_⟩
  · exact from_key_mapping.2.2.2.2.2.2.2.2.2.1 'z' (by decide)
  · exact from_key_mapping.2.2.2.2.2.2.2.2.2.2 Key.Up (fun c => by simp) (by simp) (by simp)

/-- C9: rotating a vector by angle `a` and then by `-a` with the 2D
rotation-matrix formula returns the vector exactly (in the real-number
idealisation of `f64` arithmetic, exact equality — a fortiori within any
floating-point tolerance). -/
theorem rotate_round_trip (v : Vec2 ℝ) (a : ℝ) :
    Vec2.rotate (Vec2.rotate v a) (-a) = v := by
  obtain ⟨x, y⟩ := v
  simp only [Vec2.rotate, Real.cos_neg, Real.sin_neg, Vec2.mk.injEq]
  constructor
  · linear_combination x * Real.sin_sq_add_cos_sq a
  · linear_combination y * Real.sin_sq_add_cos_sq a

/-- C10: on a body with an empty segment sequence, `move(dt)` leaves the
sequence empty (the pushed head is the very element popped from the back)
while the head still advances by `forward*dt`; a zero-segment snake never
acquires a trail through `move`. -/
theorem move_empty_body (s : Snake ℚ) (dt : ℚ) (h : s.body = []) :
    (s.move dt).body = [] ∧
    (s.move dt).head = s.head + s.forward * dt ∧
    (s.move dt).len = s.len ∧
    (s.move dt).forward = s.forward := by
  refine ⟨?_, rfl, rfl, rfl⟩
  simp [Snake.move, h]

/-- Witness for C10 on the freshly created snake (`Snake::new()` has no
segments). -/
theorem move_empty_body_witness :
    ((Snake.new : Snake ℚ).move 1).body = [] :=
  (move_empty_body Snake.new 1 rfl).1
